import Mathlib

/-!
Verification of the Quadrant Ranking application (src/main.py).

The Python program is shallowly embedded below: pure helpers become Lean
functions over `Int`/`Rat`/`String`, the mutable `MainWindow` / `QuadrantView`
state becomes explicit records threaded through the event handlers, and the
filesystem (the JSON entries file and the managed images directory) becomes an
explicit record.  Python's insertion-ordered `dict` of entries is embedded as a
`List Entry` keyed by `id` with Python's update-in-place / append-if-new
assignment semantics.
-/

namespace QuadrantRanking

/-- `clamp(val, a, b) = max(a, min(b, val))` from src/main.py. -/
def clamp (val a b : Int) : Int := max a (min b val)

/-- Python's builtin `round` on an exact rational: round to the nearest
integer, ties to the even integer (banker's rounding). -/
def pyRound (q : ℚ) : Int :=
  let f : Int := ⌊q⌋
  let r : ℚ := q - f
  if r < 1 / 2 then f
  else if 1 / 2 < r then f + 1
  else if f % 2 = 0 then f else f + 1

/-- `QuadrantView.map_value_to_pos`: logical value space to pixel space.
`w`, `h` are the viewport width and height, `margin` is `self.margin`. -/
def map_value_to_pos (w h margin : ℚ) (x_val y_val : ℚ) : ℚ × ℚ :=
  let center_x := w / 2
  let center_y := h / 2
  (center_x + (x_val / 100) * (center_x - margin),
   center_y - (y_val / 100) * (center_y - margin))

/-- `QuadrantView.map_pos_to_value`: pixel space back to logical values,
rounded to the nearest integer and clamped to [-100, 100]. -/
def map_pos_to_value (w h margin : ℚ) (x y : ℚ) : Int × Int :=
  let center_x := w / 2
  let center_y := h / 2
  let x_val := ((x - center_x) / (center_x - margin)) * 100
  let y_val := ((center_y - y) / (center_y - margin)) * 100
  (clamp (pyRound x_val) (-100) 100, clamp (pyRound y_val) (-100) 100)

/-- `QuadrantView.margin` is set to 40 in `__init__`. -/
def viewMargin : ℚ := 40

/-- The `Entry` record: `{id, name, image_path, x, y}` with x, y intended to
lie in -100..100. -/
structure Entry where
  id : Int
  name : String
  image_path : String
  x : Int
  y : Int
deriving Repr, DecidableEq

/-- A well-formed persisted entry object, as produced by `Entry.to_dict` and
consumed by `Entry.from_dict`.  `x` and `y` are optional because
`from_dict` uses `d.get` with default 0 for them. -/
structure EntryDict where
  id : Int
  name : String
  image_path : String
  x : Option Int
  y : Option Int
deriving Repr, DecidableEq

/-- `Entry.to_dict`. -/
def Entry.to_dict (e : Entry) : EntryDict :=
  ⟨e.id, e.name, e.image_path, some e.x, some e.y⟩

/-- `Entry.from_dict`: `Entry(d['id'], d['name'], d['image_path'],
d.get('x', 0), d.get('y', 0))`. -/
def Entry.from_dict (d : EntryDict) : Entry :=
  ⟨d.id, d.name, d.image_path, d.x.getD 0, d.y.getD 0⟩

/-- The six axis labels held by `AxisSettingsWidget`'s line edits. -/
structure AxisConfig where
  x_name : String
  x_left : String
  x_right : String
  y_name : String
  y_top : String
  y_bottom : String
deriving Repr, DecidableEq

/-- The persisted `axis` object; every key is read back with `.get` and a
per-field default. -/
structure AxisDict where
  x_name : Option String
  x_left : Option String
  x_right : Option String
  y_name : Option String
  y_top : Option String
  y_bottom : Option String
deriving Repr, DecidableEq

/-- The persisted JSON payload `{next_id, entries, axis}`.  `next_id` and
`axis` are read back with `.get` and defaults; `axis := none` models a
missing (or empty, hence falsy) axis object. -/
structure Payload where
  next_id : Option Int
  entries : List EntryDict
  axis : Option AxisDict
deriving Repr, DecidableEq

/-- The filesystem as the program sees it: the optional content of
`data/entries.json` (already parsed; only well-formed files are modelled)
and the set of image file paths that exist on disk. -/
structure FS where
  entriesFile : Option Payload
  images : List String
deriving Repr, DecidableEq

/-! `MainWindow.entries` is a Python dict keyed by entry id, which preserves
insertion order.  It is embedded as a `List Entry`; assignment
`entries[e.id] = e` updates in place when the key exists and appends
otherwise, `pop` removes the keyed element, lookup is `find?`. -/

/-- Python dict assignment `entries[e.id] = e` on an insertion-ordered dict. -/
def dictInsert (es : List Entry) (e : Entry) : List Entry :=
  if es.any (fun e0 => e0.id = e.id) then
    es.map (fun e0 => if e0.id = e.id then e else e0)
  else
    es ++ [e]

/-- Python dict `entries.pop(i, None)` (the removal effect). -/
def dictPop (es : List Entry) (i : Int) : List Entry :=
  es.filter (fun e => e.id ≠ i)

/-- Python dict lookup `entries[i]` / `entries.get(i)`. -/
def dictGet (es : List Entry) (i : Int) : Option Entry :=
  es.find? (fun e => e.id = i)

/-- One icon item on the canvas: `DraggablePixmapItem`.  `pos` is the item's
top-left scene position, `pixW`/`pixH` the scaled pixmap size. -/
structure CanvasItem where
  entryId : Int
  pos : ℚ × ℚ
  pixW : ℚ
  pixH : ℚ
deriving Repr, DecidableEq

/-- `QuadrantView` state: `items_map` (the Python dict of id to item, which
survives a scene clear) and the scene contents, split into the icon items
currently in the scene and a flag for the axis graphics. -/
structure Canvas where
  itemsMap : List CanvasItem
  sceneIcons : List Int
  axesDrawn : Bool
deriving Repr, DecidableEq

/-- `MainWindow` state: the ordered entry dict, the id counter, the axis
settings widget's labels, the ids shown in the list widget (in order), and
the canvas. -/
structure MainState where
  entries : List Entry
  next_id : Int
  axis : AxisConfig
  listWidget : List Int
  canvas : Canvas
deriving Repr, DecidableEq

/-- The state of a freshly constructed `MainWindow` before `load_data` runs:
no entries, `next_id = 1`, default axis labels, empty list and canvas. -/
def initState : MainState :=
  { entries := []
    next_id := 1
    axis := ⟨"X Axis", "Left", "Right", "Y Axis", "Top", "Bottom"⟩
    listWidget := []
    canvas := ⟨[], [], false⟩ }

/-! The pixmap loading and 48x48 aspect-keeping scaling of
`QPixmap(path).scaled(48, 48, ...)` is opaque to the data model; it is
abstracted as an environment `env : String → ℚ × ℚ` giving the scaled
width and height of the image stored at a path. -/

/-- `QuadrantView.add_or_update_item`: update the existing item's pixmap, or
create a new item and add it to the scene; then place its top-left corner so
that its center is at the mapped pixel position of the entry's values. -/
def add_or_update_item (env : String → ℚ × ℚ) (w h margin : ℚ) (e : Entry)
    (c : Canvas) : Canvas :=
  let pw := (env e.image_path).1
  let ph := (env e.image_path).2
  let p := map_value_to_pos w h margin e.x e.y
  let pos := (p.1 - pw / 2, p.2 - ph / 2)
  if c.itemsMap.any (fun it => it.entryId = e.id) then
    { c with itemsMap := c.itemsMap.map (fun it =>
        if it.entryId = e.id then ⟨it.entryId, pos, pw, ph⟩ else it) }
  else
    { c with itemsMap := c.itemsMap ++ [⟨e.id, pos, pw, ph⟩]
             sceneIcons := c.sceneIcons ++ [e.id] }

/-- `QuadrantView.remove_item`: pop the item from `items_map` and remove it
from the scene. -/
def remove_item (i : Int) (c : Canvas) : Canvas :=
  { c with itemsMap := c.itemsMap.filter (fun it => it.entryId ≠ i)
           sceneIcons := c.sceneIcons.filter (fun j => j ≠ i) }

/-- `QuadrantView.draw_axes`: `self.scene.clear()` removes (and deletes)
everything in the scene, icon items included, then the axis lines and labels
are drawn.  `items_map` is not touched, so it keeps references to the
now-deleted items. -/
def draw_axes (c : Canvas) : Canvas :=
  { c with sceneIcons := [], axesDrawn := true }

/-- `QuadrantView.refresh_items_positions`: reposition every item in
`items_map` at the mapped pixel position of its entry's logical values.
(`item.entry` aliases the entry object held in `MainWindow.entries`; it is
embedded as a lookup by id.) -/
def refresh_items_positions (entries : List Entry) (w h margin : ℚ)
    (c : Canvas) : Canvas :=
  { c with itemsMap := c.itemsMap.map (fun it =>
      match dictGet entries it.entryId with
      | none => it
      | some e =>
        let p := map_value_to_pos w h margin e.x e.y
        ⟨it.entryId, (p.1 - it.pixW / 2, p.2 - it.pixH / 2), it.pixW, it.pixH⟩) }

/-- `QuadrantView.resizeEvent`: redraw the axes, then refresh item
positions, with `w`, `h` the new viewport size. -/
def resizeEvent (entries : List Entry) (w h margin : ℚ) (c : Canvas) : Canvas :=
  refresh_items_positions entries w h margin (draw_axes c)

/-- `MainWindow.refresh_list`: clear the list widget and re-add one row per
entry, in entry-dict iteration order. -/
def refresh_list (s : MainState) : MainState :=
  { s with listWidget := s.entries.map (fun e => e.id) }

/-- `os.path.basename` for POSIX paths. -/
def basename (p : String) : String :=
  (p.splitOn "/").getLastD p

/-- The root part of `os.path.splitext` applied to a bare file name (no
path separator): split at the last dot unless every character before it is
also a dot. -/
def splitext_root (b : String) : String :=
  let cs := b.toList
  match ((List.range cs.length).filter (fun i => cs.getD i ' ' = '.')).getLast? with
  | none => b
  | some i =>
    if (List.range i).any (fun j => cs.getD j ' ' ≠ '.') then
      String.mk (cs.take i)
    else b

/-- `MainWindow.save_data`'s payload: `{next_id, entries, axis}` with every
field written out. -/
def save_payload (s : MainState) : Payload :=
  { next_id := some s.next_id
    entries := s.entries.map Entry.to_dict
    axis := some ⟨some s.axis.x_name, some s.axis.x_left, some s.axis.x_right,
                  some s.axis.y_name, some s.axis.y_top, some s.axis.y_bottom⟩ }

/-- `MainWindow.save_data` (successful write): replace the entries file with
the serialized payload. -/
def save_data (s : MainState) (fs : FS) : FS :=
  { fs with entriesFile := some (save_payload s) }

/-- The result of a user-triggered handler: the window state, the
filesystem, and whether a `QMessageBox` dialog was shown. -/
structure ActionResult where
  state : MainState
  fs : FS
  dialogShown : Bool
deriving Repr, DecidableEq

/-- `MainWindow.add_entry`.  `fn` is the file chosen in the picker (`none` if
cancelled); `copyOk` tells whether `shutil.copyfile` succeeds.  On success the
copy creates the destination image file, the new entry (id `next_id`,
position (0,0), name the base name without extension) is added to the dict,
`next_id` is bumped, the list row and canvas icon are added, and the data is
saved. -/
def add_entry (env : String → ℚ × ℚ) (w h margin : ℚ) (fn : Option String)
    (copyOk : Bool) (s : MainState) (fs : FS) : ActionResult :=
  match fn with
  | none => ⟨s, fs, false⟩
  | some f =>
    let base := basename f
    let dest := "data/images/" ++ toString s.next_id ++ "_" ++ base
    if copyOk then
      let fs1 : FS := { fs with images := fs.images ++ [dest] }
      let e : Entry := ⟨s.next_id, splitext_root base, dest, 0, 0⟩
      let s1 : MainState := { s with entries := dictInsert s.entries e
                                     next_id := s.next_id + 1 }
      let s2 : MainState := { s1 with listWidget := s1.listWidget ++ [e.id] }
      let s3 : MainState := { s2 with canvas := add_or_update_item env w h margin e s2.canvas }
      ⟨s3, save_data s3 fs1, false⟩
    else
      ⟨s, fs, true⟩

/-- The shared confirmed-dialog body of `edit_selected` and
`open_entry_dialog_from_list`: write the dialog's name/x/y into the entry
object (in place, so the dict keeps its order), update the canvas item,
rebuild the list, save. -/
def apply_edit (env : String → ℚ × ℚ) (w h margin : ℚ) (e0 : Entry)
    (nm : String) (xv yv : Int) (s : MainState) (fs : FS) : ActionResult :=
  let e1 : Entry := ⟨e0.id, nm, e0.image_path, xv, yv⟩
  let s1 : MainState := { s with entries := dictInsert s.entries e1 }
  let s2 : MainState := { s1 with canvas := add_or_update_item env w h margin e1 s1.canvas }
  let s3 : MainState := refresh_list s2
  ⟨s3, save_data s3 fs, false⟩

/-- `MainWindow.edit_selected`.  `sel` is the selected entry id (`none` shows
an informational dialog); `dlg` is the dialog outcome: `none` for cancel,
`some (name, x, y)` for confirm (the x and y spin boxes are range-limited to
[-100, 100]). -/
def edit_selected (env : String → ℚ × ℚ) (w h margin : ℚ) (sel : Option Int)
    (dlg : Option (String × Int × Int)) (s : MainState) (fs : FS) : ActionResult :=
  match sel with
  | none => ⟨s, fs, true⟩
  | some eid =>
    match dictGet s.entries eid with
    | none => ⟨s, fs, false⟩
    | some e0 =>
      match dlg with
      | none => ⟨s, fs, false⟩
      | some (nm, xv, yv) => apply_edit env w h margin e0 nm xv yv s fs

/-- `MainWindow.open_entry_dialog_from_list` (double-click on a row): same
dialog flow as `edit_selected`, with the id taken from the clicked row. -/
def open_entry_dialog_from_list (env : String → ℚ × ℚ) (w h margin : ℚ)
    (eid : Int) (dlg : Option (String × Int × Int)) (s : MainState) (fs : FS) :
    ActionResult :=
  match dictGet s.entries eid with
  | none => ⟨s, fs, false⟩
  | some e0 =>
    match dlg with
    | none => ⟨s, fs, false⟩
    | some (nm, xv, yv) => apply_edit env w h margin e0 nm xv yv s fs

/-- `MainWindow.delete_selected`.  `confirmYes` is the confirmation prompt's
outcome; `removeOk` tells whether `os.remove` on the backing image succeeds
(its failure is swallowed by `except: pass`). -/
def delete_selected (sel : Option Int) (confirmYes : Bool) (removeOk : Bool)
    (s : MainState) (fs : FS) : ActionResult :=
  match sel with
  | none => ⟨s, fs, true⟩
  | some eid =>
    if confirmYes then
      match dictGet s.entries eid with
      | none => ⟨s, fs, false⟩
      | some e0 =>
        let s1 : MainState := { s with entries := dictPop s.entries eid }
        let fs1 : FS :=
          if removeOk then { fs with images := fs.images.filter (fun p => p ≠ e0.image_path) }
          else fs
        let s2 : MainState := { s1 with canvas := remove_item eid s1.canvas }
        let s3 : MainState := refresh_list s2
        ⟨s3, save_data s3 fs1, false⟩
    else ⟨s, fs, false⟩

/-- `MainWindow.update_entry_from_item` (icon drag-release): take the item's
center pixel position, inverse-map it to logical values, store them in the
item's entry (aliased in the dict when present), rebuild the list, save. -/
def update_entry_from_item (w h margin : ℚ) (it : CanvasItem)
    (s : MainState) (fs : FS) : MainState × FS :=
  let cx := it.pos.1 + it.pixW / 2
  let cy := it.pos.2 + it.pixH / 2
  let v := map_pos_to_value w h margin cx cy
  let s1 : MainState := { s with entries := s.entries.map (fun e =>
      if e.id = it.entryId then ⟨e.id, e.name, e.image_path, v.1, v.2⟩ else e) }
  let s2 : MainState := refresh_list s1
  (s2, save_data s2 fs)

/-- `MainWindow.load_data` (well-formed file): read `next_id` with default 1,
fold the deserialized entries whose image file exists into the dict, apply
the axis labels with per-field defaults when an axis object is present,
rebuild the list, and add every entry's icon to the canvas.  Returns the new
state and whether an error dialog was shown (never, for a well-formed or
missing file). -/
def load_data (env : String → ℚ × ℚ) (w h margin : ℚ) (s : MainState)
    (fs : FS) : MainState × Bool :=
  match fs.entriesFile with
  | none => (s, false)
  | some p =>
    let kept := (p.entries.map Entry.from_dict).filter
      (fun e => fs.images.contains e.image_path)
    let ax : AxisConfig :=
      match p.axis with
      | none => s.axis
      | some a => ⟨a.x_name.getD "X Axis", a.x_left.getD "Left",
                   a.x_right.getD "Right", a.y_name.getD "Y Axis",
                   a.y_top.getD "Top", a.y_bottom.getD "Bottom"⟩
    let s1 : MainState := { s with next_id := p.next_id.getD 1
                                   entries := kept.foldl dictInsert s.entries
                                   axis := ax }
    let s2 : MainState := refresh_list s1
    let c3 : Canvas := s2.entries.foldl (fun c e => add_or_update_item env w h margin e c) s2.canvas
    let s3 : MainState := { s2 with canvas := c3 }
    (s3, false)

/-- A concrete pixmap-size environment for witnesses: every image scales to
48 x 48. -/
def env48 : String → ℚ × ℚ := fun _ => (48, 48)

/-- An entry whose coordinates are in the documented -100..100 range. -/
def entryInRange (e : Entry) : Prop :=
  -100 ≤ e.x ∧ e.x ≤ 100 ∧ -100 ≤ e.y ∧ e.y ≤ 100

instance (e : Entry) : Decidable (entryInRange e) := by
  unfold entryInRange; infer_instance

/-- Every entry of a collection is in the documented coordinate range. -/
def coordsInRange (es : List Entry) : Prop :=
  ∀ e ∈ es, entryInRange e

instance (es : List Entry) : Decidable (coordsInRange es) := by
  unfold coordsInRange; infer_instance

theorem pyRound_intCast (n : Int) : pyRound (n : ℚ) = n := by
  unfold pyRound
  norm_num

theorem clamp_eq_self (v : Int) (h1 : -100 ≤ v) (h2 : v ≤ 100) :
    clamp v (-100) 100 = v := by
  unfold clamp
  omega

theorem clamp_mem (v : Int) : -100 ≤ clamp v (-100) 100 ∧ clamp v (-100) 100 ≤ 100 := by
  unfold clamp
  omega

/-- Core round-trip fact about the mapper, shared by several claims. -/
theorem inverse_forward (vx vy : Int) (w h : ℚ)
    (hx1 : -100 ≤ vx) (hx2 : vx ≤ 100) (hy1 : -100 ≤ vy) (hy2 : vy ≤ 100)
    (hw : viewMargin < w / 2) (hh : viewMargin < h / 2) :
    map_pos_to_value w h viewMargin
      (map_value_to_pos w h viewMargin vx vy).1
      (map_value_to_pos w h viewMargin vx vy).2 = (vx, vy) := by
  unfold map_pos_to_value map_value_to_pos viewMargin at *
  have hwne : w / 2 - 40 ≠ 0 := sub_ne_zero.mpr (by linarith)
  have hhne : h / 2 - 40 ≠ 0 := sub_ne_zero.mpr (by linarith)
  have ex : (w / 2 + (vx : ℚ) / 100 * (w / 2 - 40) - w / 2) / (w / 2 - 40) * 100 = (vx : ℚ) := by
    have e1 : w / 2 + (vx : ℚ) / 100 * (w / 2 - 40) - w / 2 = (vx : ℚ) / 100 * (w / 2 - 40) := by
      ring
    rw [e1, mul_div_cancel_right₀ _ hwne, div_mul_cancel₀]
    norm_num
  have ey : (h / 2 - (h / 2 - (vy : ℚ) / 100 * (h / 2 - 40))) / (h / 2 - 40) * 100 = (vy : ℚ) := by
    have e1 : h / 2 - (h / 2 - (vy : ℚ) / 100 * (h / 2 - 40)) = (vy : ℚ) / 100 * (h / 2 - 40) := by
      ring
    rw [e1, mul_div_cancel_right₀ _ hhne, div_mul_cancel₀]
    norm_num
  simp only [ex, ey, pyRound_intCast, clamp_eq_self vx hx1 hx2, clamp_eq_self vy hy1 hy2]

theorem from_dict_to_dict (e : Entry) : Entry.from_dict (Entry.to_dict e) = e := rfl

theorem from_dict_id (d : EntryDict) : (Entry.from_dict d).id = d.id := rfl

/-- Folding Python-dict insertion of entries whose ids are fresh and
mutually distinct is list concatenation. -/
theorem foldl_dictInsert_eq_append (l : List Entry) : ∀ (acc : List Entry),
    (∀ e ∈ l, ∀ a ∈ acc, a.id ≠ e.id) → (l.map Entry.id).Nodup →
    l.foldl dictInsert acc = acc ++ l := by
  induction l with
  | nil => intro acc _ _; simp
  | cons e tl ih =>
    intro acc hfresh hnd
    have hany : acc.any (fun e0 => e0.id = e.id) = false := by
      rw [List.any_eq_false]
      intro a ha
      simp only [decide_eq_true_eq]
      exact hfresh e (List.mem_cons_self e tl) a ha
    have hstep : dictInsert acc e = acc ++ [e] := by
      unfold dictInsert
      rw [hany]
      simp
    rw [List.foldl_cons, hstep]
    rw [List.map_cons, List.nodup_cons] at hnd
    have h1 : ∀ x ∈ tl, ∀ a ∈ acc ++ [e], a.id ≠ x.id := by
      intro x hx a ha
      rcases List.mem_append.mp ha with h | h
      · exact hfresh x (List.mem_cons_of_mem e hx) a h
      · rcases List.mem_singleton.mp h with rfl
        intro hc
        exact hnd.1 (hc ▸ List.mem_map_of_mem Entry.id hx)
    rw [ih (acc ++ [e]) h1 hnd.2, List.append_assoc]
    rfl

/-- With distinct ids, looking up `eid` pins down the unique member with
that id. -/
theorem dictGet_unique (es : List Entry) (eid : Int) (e0 e : Entry)
    (hnd : (es.map Entry.id).Nodup) (hget : dictGet es eid = some e0)
    (he : e ∈ es) (heid : e.id = eid) : e = e0 := by
  induction es with
  | nil => cases he
  | cons a tl ih =>
    rw [List.map_cons, List.nodup_cons] at hnd
    unfold dictGet at hget
    rw [List.find?_cons] at hget
    by_cases ha : a.id = eid
    · simp only [ha, decide_eq_true_eq, if_pos rfl] at hget
      cases hget
      rcases List.mem_cons.mp he with rfl | htl
      · rfl
      · have hmem : e0.id ∈ tl.map Entry.id := by
          rw [ha, ← heid]
          exact List.mem_map_of_mem Entry.id htl
        exact absurd hmem hnd.1
    · simp only [decide_eq_true_eq, ha, if_false] at hget
      rcases List.mem_cons.mp he with rfl | htl
      · exact absurd heid ha
      · exact ih hnd.2 hget htl

theorem dictGet_mem (es : List Entry) (eid : Int) (e0 : Entry)
    (hget : dictGet es eid = some e0) : e0 ∈ es ∧ e0.id = eid := by
  unfold dictGet at hget
  refine ⟨List.mem_of_find?_eq_some hget, ?_⟩
  have := List.find?_some hget
  simpa using this

/-- Inserting an entry whose id is already present rewrites that slot in
place. -/
theorem dictInsert_present (es : List Entry) (e1 : Entry)
    (hmem : ∃ e ∈ es, e.id = e1.id) :
    dictInsert es e1 = es.map (fun e0 => if e0.id = e1.id then e1 else e0) := by
  unfold dictInsert
  have hany : es.any (fun e0 => e0.id = e1.id) = true := by
    rw [List.any_eq_true]
    obtain ⟨e, he, hid⟩ := hmem
    exact ⟨e, he, by simpa using hid⟩
  rw [hany]
  simp

/-- C1: for integer logical values in [-100, 100] and a viewport whose
half-extents both exceed the fixed margin of 40, the inverse pixel-to-value
mapping undoes the forward value-to-pixel mapping exactly. -/
theorem C1_inverse_forward (vx vy : Int) (w h : ℚ)
    (hx1 : -100 ≤ vx) (hx2 : vx ≤ 100) (hy1 : -100 ≤ vy) (hy2 : vy ≤ 100)
    (hw : viewMargin < w / 2) (hh : viewMargin < h / 2) :
    map_pos_to_value w h viewMargin
      (map_value_to_pos w h viewMargin vx vy).1
      (map_value_to_pos w h viewMargin vx vy).2 = (vx, vy) :=
  inverse_forward vx vy w h hx1 hx2 hy1 hy2 hw hh

/-- Witness for C1 at vx = 50, vy = -30, viewport 800 x 600. -/
theorem C1_inverse_forward_witness :
    map_pos_to_value 800 600 viewMargin
      (map_value_to_pos 800 600 viewMargin (50 : Int) (-30 : Int)).1
      (map_value_to_pos 800 600 viewMargin (50 : Int) (-30 : Int)).2 = (50, -30) :=
  C1_inverse_forward 50 (-30) 800 600 (by norm_num) (by norm_num)
    (by norm_num) (by norm_num) (by norm_num [viewMargin]) (by norm_num [viewMargin])

/-- C10: if the image copy fails during an add, the error is reported via a
dialog and nothing changes: no entry, list row or canvas icon is added, the
id counter stays put, and no save is performed. -/
theorem C10_copy_failure_no_change (env : String → ℚ × ℚ) (w h margin : ℚ)
    (f : String) (s : MainState) (fs : FS) :
    add_entry env w h margin (some f) false s fs = ⟨s, fs, true⟩ := rfl

/-- C4 counterexample-style evaluation: on a concrete state with one entry
whose icon sits in the scene, a resize leaves the scene with no icon at all
(while `items_map` still lists the now-deleted item), because `draw_axes`
starts with `scene.clear()` and `refresh_items_positions` never re-adds
items to the scene. -/
theorem C4_resize_drops_icons_from_scene :
    (Canvas.mk [⟨1, (556, 354), 48, 48⟩] [1] true).sceneIcons = [1] ∧
    (resizeEvent [⟨1, "A", "data/images/1_A.png", 50, -30⟩] 1000 800 viewMargin
      (Canvas.mk [⟨1, (556, 354), 48, 48⟩] [1] true)).sceneIcons = [] ∧
    (resizeEvent [⟨1, "A", "data/images/1_A.png", 50, -30⟩] 1000 800 viewMargin
      (Canvas.mk [⟨1, (556, 354), 48, 48⟩] [1] true)).itemsMap.map CanvasItem.entryId
      = [1] := by
  refine ⟨rfl, rfl, ?_⟩
  decide

/-- C3 counterexample: loading a well-formed persisted file that stores
x = 200 for an entry (whose image exists) yields an in-memory collection
with a coordinate outside [-100, 100]; `load_data` performs no range
validation. -/
theorem C3_load_breaks_range :
    ¬ coordsInRange (load_data env48 800 600 viewMargin initState
      ⟨some ⟨some 2, [⟨1, "a", "data/images/1_a.png", some 200, some 0⟩], none⟩,
       ["data/images/1_a.png"]⟩).1.entries := by
  decide

/-- C6: a successful add assigns the new entry the id `next_id`, which no
current entry holds and which differs from every id handed out earlier in
the session (all of which are below the counter), and bumps the counter by
exactly one. -/
theorem C6_add_assigns_fresh_id (env : String → ℚ × ℚ) (w h margin : ℚ)
    (f : String) (s : MainState) (fs : FS) (sessionIds : List Int)
    (hsess : ∀ i ∈ sessionIds, i < s.next_id)
    (hids : ∀ e ∈ s.entries, e.id < s.next_id) :
    (add_entry env w h margin (some f) true s fs).state.next_id = s.next_id + 1 ∧
    ∃ e : Entry,
      (add_entry env w h margin (some f) true s fs).state.entries = s.entries ++ [e] ∧
      e.id = s.next_id ∧ e.id ∉ s.entries.map Entry.id ∧ e.id ∉ sessionIds := by
  have hany : s.entries.any (fun e0 => e0.id = s.next_id) = false := by
    rw [List.any_eq_false]
    intro a ha
    simpa using Int.ne_of_lt (hids a ha)
  have hins : ∀ e1 : Entry, e1.id = s.next_id → dictInsert s.entries e1 = s.entries ++ [e1] := by
    intro e1 he1
    unfold dictInsert
    rw [he1, hany]
    simp
  refine ⟨rfl, ⟨⟨s.next_id, splitext_root (basename f),
      "data/images/" ++ toString s.next_id ++ "_" ++ basename f, 0, 0⟩, ?_, rfl, ?_, ?_⟩⟩
  · exact hins _ rfl
  · intro hc
    rcases List.mem_map.mp hc with ⟨a, ha, hid⟩
    exact absurd hid (Int.ne_of_lt (hids a ha))
  · intro hc
    exact absurd rfl (Int.ne_of_lt (hsess _ hc))

/-- Witness for C6: adding to the fresh empty state. -/
theorem C6_add_assigns_fresh_id_witness :
    (add_entry env48 800 600 viewMargin (some "pic.png") true initState ⟨none, []⟩).state.next_id
      = initState.next_id + 1 ∧
    ∃ e : Entry,
      (add_entry env48 800 600 viewMargin (some "pic.png") true initState
        ⟨none, []⟩).state.entries = initState.entries ++ [e] ∧
      e.id = initState.next_id ∧ e.id ∉ initState.entries.map Entry.id ∧ e.id ∉ ([] : List Int) :=
  C6_add_assigns_fresh_id env48 800 600 viewMargin "pic.png" initState ⟨none, []⟩ []
    (by intro i hi; cases hi) (by intro e he; cases he)

/-- C9: loading a persisted file (distinct entry ids, as `save_data` writes)
some of whose image files are missing shows no error and yields exactly the
entries whose image file exists, silently dropping the rest. -/
theorem C9_load_drops_missing_images (env : String → ℚ × ℚ) (w h margin : ℚ)
    (p : Payload) (imgs : List String)
    (hnd : (p.entries.map EntryDict.id).Nodup) :
    (load_data env w h margin initState ⟨some p, imgs⟩).2 = false ∧
    (load_data env w h margin initState ⟨some p, imgs⟩).1.entries =
      (p.entries.map Entry.from_dict).filter (fun e => imgs.contains e.image_path) := by
  refine ⟨rfl, ?_⟩
  have h1 : (p.entries.map Entry.from_dict).map Entry.id = p.entries.map EntryDict.id := by
    rw [List.map_map]
    rfl
  rw [← h1] at hnd
  have hknd : ((((p.entries.map Entry.from_dict).filter
      (fun e => imgs.contains e.image_path))).map Entry.id).Nodup :=
    List.Nodup.sublist (List.Sublist.map _ (List.filter_sublist _)) hnd
  show (((p.entries.map Entry.from_dict).filter
      (fun e => imgs.contains e.image_path))).foldl dictInsert [] = _
  rw [foldl_dictInsert_eq_append _ [] (by intro e _ a ha; cases ha) hknd]
  simp

/-- Witness for C9: a two-entry file where only the first image exists. -/
theorem C9_load_drops_missing_images_witness :
    (load_data env48 800 600 viewMargin initState
      ⟨some ⟨some 3, [⟨1, "a", "data/images/1_a.png", some 10, some 20⟩,
                      ⟨2, "b", "data/images/2_b.png", some 30, some 40⟩], none⟩,
       ["data/images/1_a.png"]⟩).2 = false ∧
    (load_data env48 800 600 viewMargin initState
      ⟨some ⟨some 3, [⟨1, "a", "data/images/1_a.png", some 10, some 20⟩,
                      ⟨2, "b", "data/images/2_b.png", some 30, some 40⟩], none⟩,
       ["data/images/1_a.png"]⟩).1.entries =
      (([⟨1, "a", "data/images/1_a.png", some 10, some 20⟩,
         ⟨2, "b", "data/images/2_b.png", some 30, some 40⟩] : List EntryDict).map
        Entry.from_dict).filter
        (fun e => (["data/images/1_a.png"] : List String).contains e.image_path) :=
  C9_load_drops_missing_images env48 800 600 viewMargin
    ⟨some 3, [⟨1, "a", "data/images/1_a.png", some 10, some 20⟩,
              ⟨2, "b", "data/images/2_b.png", some 30, some 40⟩], none⟩
    ["data/images/1_a.png"] (by decide)

/-- C2: saving a state with distinct entry ids whose image files all exist
and loading it back into a fresh window reproduces the entries (ids, names,
image paths, x, y), the six axis labels, and the `next_id` counter, with no
error. -/
theorem C2_save_load_roundtrip (env : String → ℚ × ℚ) (w h margin : ℚ)
    (s : MainState) (fs : FS)
    (hne : s.entries ≠ [])
    (hnd : (s.entries.map Entry.id).Nodup)
    (himg : ∀ e ∈ s.entries, e.image_path ∈ fs.images) :
    (load_data env w h margin initState (save_data s fs)).1.entries = s.entries ∧
    (load_data env w h margin initState (save_data s fs)).1.axis = s.axis ∧
    (load_data env w h margin initState (save_data s fs)).1.next_id = s.next_id ∧
    (load_data env w h margin initState (save_data s fs)).2 = false := by
  have hmaps : (s.entries.map Entry.to_dict).map Entry.from_dict = s.entries := by
    rw [List.map_map]
    conv_rhs => rw [← List.map_id s.entries]
    exact List.map_congr_left (fun e _ => from_dict_to_dict e)
  have hfilter : ((s.entries.map Entry.to_dict).map Entry.from_dict).filter
      (fun e => fs.images.contains e.image_path) = s.entries := by
    rw [hmaps]
    apply List.filter_eq_self.mpr
    intro e he
    simpa using himg e he
  constructor
  · show (((s.entries.map Entry.to_dict).map Entry.from_dict).filter
        (fun e => fs.images.contains e.image_path)).foldl dictInsert [] = s.entries
    rw [hfilter, foldl_dictInsert_eq_append _ [] (by intro e _ a ha; cases ha) hnd]
    simp
  · exact ⟨rfl, rfl, rfl⟩

/-- Witness for C2: one entry, its image present. -/
theorem C2_save_load_roundtrip_witness :
    (load_data env48 800 600 viewMargin initState
      (save_data ⟨[⟨1, "a", "data/images/1_a.png", 50, -30⟩], 2,
        ⟨"Effort", "Low", "High", "Impact", "Big", "Small"⟩, [1], ⟨[], [], true⟩⟩
        ⟨none, ["data/images/1_a.png"]⟩)).1.entries
      = [⟨1, "a", "data/images/1_a.png", 50, -30⟩] ∧
    (load_data env48 800 600 viewMargin initState
      (save_data ⟨[⟨1, "a", "data/images/1_a.png", 50, -30⟩], 2,
        ⟨"Effort", "Low", "High", "Impact", "Big", "Small"⟩, [1], ⟨[], [], true⟩⟩
        ⟨none, ["data/images/1_a.png"]⟩)).1.axis
      = ⟨"Effort", "Low", "High", "Impact", "Big", "Small"⟩ ∧
    (load_data env48 800 600 viewMargin initState
      (save_data ⟨[⟨1, "a", "data/images/1_a.png", 50, -30⟩], 2,
        ⟨"Effort", "Low", "High", "Impact", "Big", "Small"⟩, [1], ⟨[], [], true⟩⟩
        ⟨none, ["data/images/1_a.png"]⟩)).1.next_id = 2 ∧
    (load_data env48 800 600 viewMargin initState
      (save_data ⟨[⟨1, "a", "data/images/1_a.png", 50, -30⟩], 2,
        ⟨"Effort", "Low", "High", "Impact", "Big", "Small"⟩, [1], ⟨[], [], true⟩⟩
        ⟨none, ["data/images/1_a.png"]⟩)).2 = false :=
  C2_save_load_roundtrip env48 800 600 viewMargin
    ⟨[⟨1, "a", "data/images/1_a.png", 50, -30⟩], 2,
      ⟨"Effort", "Low", "High", "Impact", "Big", "Small"⟩, [1], ⟨[], [], true⟩⟩
    ⟨none, ["data/images/1_a.png"]⟩ (by decide) (by decide) (by decide)

/-- C5: releasing a dragged icon whose center sits at the pixel position
that the forward mapper assigns to logical (50, -30) stores exactly x = 50
and y = -30 in the dragged entry (inverse mapping, rounding and clamping
included), and leaves every other entry unchanged. -/
theorem C5_drag_release_sets_values (w h : ℚ) (it : CanvasItem)
    (s : MainState) (fs : FS)
    (hw : viewMargin < w / 2) (hh : viewMargin < h / 2)
    (hcx : it.pos.1 + it.pixW / 2 = (map_value_to_pos w h viewMargin 50 (-30)).1)
    (hcy : it.pos.2 + it.pixH / 2 = (map_value_to_pos w h viewMargin 50 (-30)).2) :
    (update_entry_from_item w h viewMargin it s fs).1.entries =
      s.entries.map (fun e =>
        if e.id = it.entryId then ⟨e.id, e.name, e.image_path, 50, -30⟩ else e) := by
  have hv := inverse_forward 50 (-30) w h (by norm_num) (by norm_num)
    (by norm_num) (by norm_num) hw hh
  push_cast at hv
  unfold update_entry_from_item refresh_list
  simp only []
  rw [hcx, hcy, hv]

/-- Witness for C5 on an 800 x 600 viewport: forward (50, -30) is pixel
(580, 378); a 48 x 48 icon released with top-left (556, 354) has its center
there. -/
theorem C5_drag_release_sets_values_witness :
    (update_entry_from_item 800 600 viewMargin ⟨1, (556, 354), 48, 48⟩
      ⟨[⟨1, "a", "data/images/1_a.png", 0, 0⟩], 2,
        ⟨"X Axis", "Left", "Right", "Y Axis", "Top", "Bottom"⟩, [1], ⟨[], [], true⟩⟩
      ⟨none, ["data/images/1_a.png"]⟩).1.entries =
      ([⟨1, "a", "data/images/1_a.png", 0, 0⟩] : List Entry).map (fun e =>
        if e.id = (1 : Int) then ⟨e.id, e.name, e.image_path, 50, -30⟩ else e) :=
  C5_drag_release_sets_values 800 600 ⟨1, (556, 354), 48, 48⟩
    ⟨[⟨1, "a", "data/images/1_a.png", 0, 0⟩], 2,
      ⟨"X Axis", "Left", "Right", "Y Axis", "Top", "Bottom"⟩, [1], ⟨[], [], true⟩⟩
    ⟨none, ["data/images/1_a.png"]⟩
    (by norm_num [viewMargin]) (by norm_num [viewMargin])
    (by norm_num [map_value_to_pos, viewMargin]) (by norm_num [map_value_to_pos, viewMargin])

/-- C7: confirming the edit dialog (from the button or from a double-clicked
row) rewrites exactly the selected entry's name, x and y, keeping its id and
image path and leaving every other entry untouched; cancelling either dialog
changes nothing. -/
theorem C7_edit_updates_exactly_one (env : String → ℚ × ℚ) (w h margin : ℚ)
    (eid : Int) (nm : String) (xv yv : Int) (s : MainState) (fs : FS) (e0 : Entry)
    (hnd : (s.entries.map Entry.id).Nodup)
    (hget : dictGet s.entries eid = some e0) :
    (edit_selected env w h margin (some eid) (some (nm, xv, yv)) s fs).state.entries =
      s.entries.map (fun e => if e.id = eid then ⟨e.id, nm, e.image_path, xv, yv⟩ else e) ∧
    (open_entry_dialog_from_list env w h margin eid (some (nm, xv, yv)) s fs).state.entries =
      s.entries.map (fun e => if e.id = eid then ⟨e.id, nm, e.image_path, xv, yv⟩ else e) ∧
    edit_selected env w h margin (some eid) none s fs = ⟨s, fs, false⟩ ∧
    open_entry_dialog_from_list env w h margin eid none s fs = ⟨s, fs, false⟩ := by
  obtain ⟨hmem, hid⟩ := dictGet_mem s.entries eid e0 hget
  have key : (apply_edit env w h margin e0 nm xv yv s fs).state.entries =
      s.entries.map (fun e => if e.id = eid then ⟨e.id, nm, e.image_path, xv, yv⟩ else e) := by
    unfold apply_edit refresh_list
    simp only []
    rw [dictInsert_present s.entries ⟨e0.id, nm, e0.image_path, xv, yv⟩ ⟨e0, hmem, rfl⟩]
    apply List.map_congr_left
    intro e he
    by_cases hcase : e.id = eid
    · have he0 : e = e0 := dictGet_unique s.entries eid e0 e hnd hget he hcase
      subst he0
      simp [hcase]
    · have hne : ¬ e.id = e0.id := by rw [hid]; exact hcase
      simp [hcase, hne]
  refine ⟨?_, ?_, ?_, ?_⟩
  · unfold edit_selected
    dsimp only
    rw [hget]
    exact key
  · unfold open_entry_dialog_from_list
    dsimp only
    rw [hget]
    exact key
  · unfold edit_selected
    dsimp only
    rw [hget]
  · unfold open_entry_dialog_from_list
    dsimp only
    rw [hget]

/-- Witness for C7: editing entry 1 of a two-entry collection. -/
theorem C7_edit_updates_exactly_one_witness :
    (edit_selected env48 800 600 viewMargin (some 1) (some ("renamed", 7, -9))
      ⟨[⟨1, "a", "data/images/1_a.png", 0, 0⟩, ⟨2, "b", "data/images/2_b.png", 5, 6⟩], 3,
        ⟨"X Axis", "Left", "Right", "Y Axis", "Top", "Bottom"⟩, [1, 2], ⟨[], [], true⟩⟩
      ⟨none, []⟩).state.entries =
      ([⟨1, "a", "data/images/1_a.png", 0, 0⟩,
        ⟨2, "b", "data/images/2_b.png", 5, 6⟩] : List Entry).map (fun e =>
        if e.id = (1 : Int) then ⟨e.id, "renamed", e.image_path, 7, -9⟩ else e) ∧
    (open_entry_dialog_from_list env48 800 600 viewMargin 1 (some ("renamed", 7, -9))
      ⟨[⟨1, "a", "data/images/1_a.png", 0, 0⟩, ⟨2, "b", "data/images/2_b.png", 5, 6⟩], 3,
        ⟨"X Axis", "Left", "Right", "Y Axis", "Top", "Bottom"⟩, [1, 2], ⟨[], [], true⟩⟩
      ⟨none, []⟩).state.entries =
      ([⟨1, "a", "data/images/1_a.png", 0, 0⟩,
        ⟨2, "b", "data/images/2_b.png", 5, 6⟩] : List Entry).map (fun e =>
        if e.id = (1 : Int) then ⟨e.id, "renamed", e.image_path, 7, -9⟩ else e) ∧
    edit_selected env48 800 600 viewMargin (some 1) none
      ⟨[⟨1, "a", "data/images/1_a.png", 0, 0⟩, ⟨2, "b", "data/images/2_b.png", 5, 6⟩], 3,
        ⟨"X Axis", "Left", "Right", "Y Axis", "Top", "Bottom"⟩, [1, 2], ⟨[], [], true⟩⟩
      ⟨none, []⟩ =
      ⟨⟨[⟨1, "a", "data/images/1_a.png", 0, 0⟩, ⟨2, "b", "data/images/2_b.png", 5, 6⟩], 3,
        ⟨"X Axis", "Left", "Right", "Y Axis", "Top", "Bottom"⟩, [1, 2], ⟨[], [], true⟩⟩,
        ⟨none, []⟩, false⟩ ∧
    open_entry_dialog_from_list env48 800 600 viewMargin 1 none
      ⟨[⟨1, "a", "data/images/1_a.png", 0, 0⟩, ⟨2, "b", "data/images/2_b.png", 5, 6⟩], 3,
        ⟨"X Axis", "Left", "Right", "Y Axis", "Top", "Bottom"⟩, [1, 2], ⟨[], [], true⟩⟩
      ⟨none, []⟩ =
      ⟨⟨[⟨1, "a", "data/images/1_a.png", 0, 0⟩, ⟨2, "b", "data/images/2_b.png", 5, 6⟩], 3,
        ⟨"X Axis", "Left", "Right", "Y Axis", "Top", "Bottom"⟩, [1, 2], ⟨[], [], true⟩⟩,
        ⟨none, []⟩, false⟩ :=
  C7_edit_updates_exactly_one env48 800 600 viewMargin 1 "renamed" 7 (-9)
    ⟨[⟨1, "a", "data/images/1_a.png", 0, 0⟩, ⟨2, "b", "data/images/2_b.png", 5, 6⟩], 3,
      ⟨"X Axis", "Left", "Right", "Y Axis", "Top", "Bottom"⟩, [1, 2], ⟨[], [], true⟩⟩
    ⟨none, []⟩ ⟨1, "a", "data/images/1_a.png", 0, 0⟩ (by decide) (by decide)

/-- C8: a confirmed delete of a present entry removes it from the entry
dict, the list widget and the canvas (both `items_map` and the scene), and
removes its backing image file when `os.remove` succeeds; when `os.remove`
fails the failure is swallowed, the images on disk stay as they were, and
the entry is removed from the application all the same. -/
theorem C8_delete_removes_everywhere (eid : Int) (removeOk : Bool)
    (s : MainState) (fs : FS) (e0 : Entry)
    (hget : dictGet s.entries eid = some e0) :
    (delete_selected (some eid) true removeOk s fs).state.entries
      = s.entries.filter (fun e => e.id ≠ eid) ∧
    eid ∉ (delete_selected (some eid) true removeOk s fs).state.listWidget ∧
    (∀ it ∈ (delete_selected (some eid) true removeOk s fs).state.canvas.itemsMap,
      it.entryId ≠ eid) ∧
    eid ∉ (delete_selected (some eid) true removeOk s fs).state.canvas.sceneIcons ∧
    (removeOk = true →
      e0.image_path ∉ (delete_selected (some eid) true removeOk s fs).fs.images) ∧
    (removeOk = false →
      (delete_selected (some eid) true removeOk s fs).fs.images = fs.images) := by
  unfold delete_selected
  dsimp only
  rw [hget]
  dsimp only
  refine ⟨rfl, ?_, ?_, ?_, ?_, ?_⟩
  · show eid ∉ (dictPop s.entries eid).map Entry.id
    intro hc
    rcases List.mem_map.mp hc with ⟨a, ha, hid⟩
    rcases List.mem_filter.mp ha with ⟨_, hpa⟩
    simp only [decide_eq_true_eq] at hpa
    exact hpa hid
  · intro it hit
    exact of_decide_eq_true (List.mem_filter.mp hit).2
  · intro hc
    have := (List.mem_filter.mp hc).2
    simp at this
  · intro hr
    subst hr
    simp only [if_pos rfl]
    intro hc
    have := (List.mem_filter.mp hc).2
    simp at this
  · intro hr
    subst hr
    rfl

/-- Witness for C8: deleting entry 1 with a successful file removal. -/
theorem C8_delete_removes_everywhere_witness :
    (delete_selected (some 1) true true
      ⟨[⟨1, "a", "data/images/1_a.png", 0, 0⟩, ⟨2, "b", "data/images/2_b.png", 5, 6⟩], 3,
        ⟨"X Axis", "Left", "Right", "Y Axis", "Top", "Bottom"⟩, [1, 2],
        ⟨[⟨1, (0, 0), 48, 48⟩, ⟨2, (0, 0), 48, 48⟩], [1, 2], true⟩⟩
      ⟨none, ["data/images/1_a.png", "data/images/2_b.png"]⟩).state.entries
      = ([⟨1, "a", "data/images/1_a.png", 0, 0⟩,
          ⟨2, "b", "data/images/2_b.png", 5, 6⟩] : List Entry).filter
          (fun e => e.id ≠ (1 : Int)) ∧
    (1 : Int) ∉ (delete_selected (some 1) true true
      ⟨[⟨1, "a", "data/images/1_a.png", 0, 0⟩, ⟨2, "b", "data/images/2_b.png", 5, 6⟩], 3,
        ⟨"X Axis", "Left", "Right", "Y Axis", "Top", "Bottom"⟩, [1, 2],
        ⟨[⟨1, (0, 0), 48, 48⟩, ⟨2, (0, 0), 48, 48⟩], [1, 2], true⟩⟩
      ⟨none, ["data/images/1_a.png", "data/images/2_b.png"]⟩).state.listWidget ∧
    (∀ it ∈ (delete_selected (some 1) true true
      ⟨[⟨1, "a", "data/images/1_a.png", 0, 0⟩, ⟨2, "b", "data/images/2_b.png", 5, 6⟩], 3,
        ⟨"X Axis", "Left", "Right", "Y Axis", "Top", "Bottom"⟩, [1, 2],
        ⟨[⟨1, (0, 0), 48, 48⟩, ⟨2, (0, 0), 48, 48⟩], [1, 2], true⟩⟩
      ⟨none, ["data/images/1_a.png", "data/images/2_b.png"]⟩).state.canvas.itemsMap,
      it.entryId ≠ (1 : Int)) ∧
    (1 : Int) ∉ (delete_selected (some 1) true true
      ⟨[⟨1, "a", "data/images/1_a.png", 0, 0⟩, ⟨2, "b", "data/images/2_b.png", 5, 6⟩], 3,
        ⟨"X Axis", "Left", "Right", "Y Axis", "Top", "Bottom"⟩, [1, 2],
        ⟨[⟨1, (0, 0), 48, 48⟩, ⟨2, (0, 0), 48, 48⟩], [1, 2], true⟩⟩
      ⟨none, ["data/images/1_a.png", "data/images/2_b.png"]⟩).state.canvas.sceneIcons ∧
    (true = true →
      "data/images/1_a.png" ∉ (delete_selected (some 1) true true
        ⟨[⟨1, "a", "data/images/1_a.png", 0, 0⟩, ⟨2, "b", "data/images/2_b.png", 5, 6⟩], 3,
          ⟨"X Axis", "Left", "Right", "Y Axis", "Top", "Bottom"⟩, [1, 2],
          ⟨[⟨1, (0, 0), 48, 48⟩, ⟨2, (0, 0), 48, 48⟩], [1, 2], true⟩⟩
        ⟨none, ["data/images/1_a.png", "data/images/2_b.png"]⟩).fs.images) ∧
    (true = false →
      (delete_selected (some 1) true true
        ⟨[⟨1, "a", "data/images/1_a.png", 0, 0⟩, ⟨2, "b", "data/images/2_b.png", 5, 6⟩], 3,
          ⟨"X Axis", "Left", "Right", "Y Axis", "Top", "Bottom"⟩, [1, 2],
          ⟨[⟨1, (0, 0), 48, 48⟩, ⟨2, (0, 0), 48, 48⟩], [1, 2], true⟩⟩
        ⟨none, ["data/images/1_a.png", "data/images/2_b.png"]⟩).fs.images
        = ["data/images/1_a.png", "data/images/2_b.png"]) :=
  C8_delete_removes_everywhere 1 true
    ⟨[⟨1, "a", "data/images/1_a.png", 0, 0⟩, ⟨2, "b", "data/images/2_b.png", 5, 6⟩], 3,
      ⟨"X Axis", "Left", "Right", "Y Axis", "Top", "Bottom"⟩, [1, 2],
      ⟨[⟨1, (0, 0), 48, 48⟩, ⟨2, (0, 0), 48, 48⟩], [1, 2], true⟩⟩
    ⟨none, ["data/images/1_a.png", "data/images/2_b.png"]⟩
    ⟨1, "a", "data/images/1_a.png", 0, 0⟩ (by decide)

theorem dictInsert_range (es : List Entry) (e : Entry)
    (hs : coordsInRange es) (he : entryInRange e) :
    coordsInRange (dictInsert es e) := by
  intro a ha
  unfold dictInsert at ha
  by_cases hany : (es.any (fun e0 => e0.id = e.id)) = true
  · rw [if_pos hany] at ha
    rcases List.mem_map.mp ha with ⟨b, hb, hba⟩
    by_cases hbid : b.id = e.id
    · rw [if_pos hbid] at hba
      exact hba ▸ he
    · rw [if_neg hbid] at hba
      exact hba ▸ hs b hb
  · rw [if_neg hany] at ha
    rcases List.mem_append.mp ha with hmem | hmem
    · exact hs a hmem
    · rcases List.mem_singleton.mp hmem with rfl
      exact he

theorem foldl_dictInsert_range (l : List Entry) : ∀ acc : List Entry,
    coordsInRange acc → (∀ e ∈ l, entryInRange e) →
    coordsInRange (l.foldl dictInsert acc) := by
  induction l with
  | nil => intro acc hacc _; exact hacc
  | cons e tl ih =>
    intro acc hacc hl
    rw [List.foldl_cons]
    exact ih (dictInsert acc e)
      (dictInsert_range acc e hacc (hl e (List.mem_cons_self e tl)))
      (fun x hx => hl x (List.mem_cons_of_mem e hx))

theorem map_pos_to_value_mem (w h margin x y : ℚ) :
    -100 ≤ (map_pos_to_value w h margin x y).1 ∧
    (map_pos_to_value w h margin x y).1 ≤ 100 ∧
    -100 ≤ (map_pos_to_value w h margin x y).2 ∧
    (map_pos_to_value w h margin x y).2 ≤ 100 := by
  unfold map_pos_to_value
  dsimp only
  exact ⟨(clamp_mem _).1, (clamp_mem _).2, (clamp_mem _).1, (clamp_mem _).2⟩

/-- C3 (amended): after an add, an edit-dialog confirm or cancel (the
dialog's spin boxes only produce values in [-100, 100]), a drag release, and
a delete, every entry's coordinates stay in [-100, 100]; after a load the
same holds provided every stored coordinate in the file is in range, since
`load_data` itself performs no range validation. -/
theorem C3_amended_coords_in_range (env : String → ℚ × ℚ) (w h margin : ℚ)
    (fn : Option String) (copyOk : Bool) (sel : Option Int) (eid : Int)
    (nm : String) (xv yv : Int) (confirmYes removeOk : Bool)
    (it : CanvasItem) (p : Payload) (imgs : List String)
    (s : MainState) (fs : FS)
    (hs : coordsInRange s.entries)
    (hxv1 : -100 ≤ xv) (hxv2 : xv ≤ 100) (hyv1 : -100 ≤ yv) (hyv2 : yv ≤ 100)
    (hp : ∀ d ∈ p.entries, entryInRange (Entry.from_dict d)) :
    coordsInRange (add_entry env w h margin fn copyOk s fs).state.entries ∧
    coordsInRange (edit_selected env w h margin sel (some (nm, xv, yv)) s fs).state.entries ∧
    coordsInRange (edit_selected env w h margin sel none s fs).state.entries ∧
    coordsInRange
      (open_entry_dialog_from_list env w h margin eid (some (nm, xv, yv)) s fs).state.entries ∧
    coordsInRange (open_entry_dialog_from_list env w h margin eid none s fs).state.entries ∧
    coordsInRange (update_entry_from_item w h margin it s fs).1.entries ∧
    coordsInRange (delete_selected sel confirmYes removeOk s fs).state.entries ∧
    coordsInRange (load_data env w h margin s ⟨some p, imgs⟩).1.entries := by
  have happly : ∀ e0 : Entry,
      coordsInRange (apply_edit env w h margin e0 nm xv yv s fs).state.entries := by
    intro e0
    unfold apply_edit refresh_list
    dsimp only
    exact dictInsert_range s.entries _ hs ⟨hxv1, hxv2, hyv1, hyv2⟩
  refine ⟨?_, ?_, ?_, ?_, ?_, ?_, ?_, ?_⟩
  · unfold add_entry
    cases fn with
    | none => exact hs
    | some f =>
      dsimp only
      cases copyOk with
      | false => exact hs
      | true =>
        apply dictInsert_range s.entries _ hs
        exact ⟨by norm_num, by norm_num, by norm_num, by norm_num⟩
  · unfold edit_selected
    cases sel with
    | none => exact hs
    | some i =>
      dsimp only
      cases hget : dictGet s.entries i with
      | none => exact hs
      | some e0 => exact happly e0
  · unfold edit_selected
    cases sel with
    | none => exact hs
    | some i =>
      dsimp only
      cases hget : dictGet s.entries i with
      | none => exact hs
      | some e0 => exact hs
  · unfold open_entry_dialog_from_list
    cases hget : dictGet s.entries eid with
    | none => exact hs
    | some e0 => exact happly e0
  · unfold open_entry_dialog_from_list
    cases hget : dictGet s.entries eid with
    | none => exact hs
    | some e0 => exact hs
  · unfold update_entry_from_item refresh_list
    dsimp only
    intro a ha
    rcases List.mem_map.mp ha with ⟨b, hb, hba⟩
    by_cases hbid : b.id = it.entryId
    · rw [if_pos hbid] at hba
      obtain ⟨m1, m2, m3, m4⟩ := map_pos_to_value_mem w h margin
        (it.pos.1 + it.pixW / 2) (it.pos.2 + it.pixH / 2)
      exact hba ▸ ⟨m1, m2, m3, m4⟩
    · rw [if_neg hbid] at hba
      exact hba ▸ hs b hb
  · unfold delete_selected
    cases sel with
    | none => exact hs
    | some i =>
      dsimp only
      cases confirmYes with
      | false => exact hs
      | true =>
        cases hget : dictGet s.entries i with
        | none => exact hs
        | some e0 =>
          dsimp only [refresh_list]
          intro a ha
          exact hs a (List.mem_of_mem_filter ha)
  · unfold load_data
    dsimp only [refresh_list]
    apply foldl_dictInsert_range _ s.entries hs
    intro e he
    rcases List.mem_filter.mp he with ⟨hmem, _⟩
    rcases List.mem_map.mp hmem with ⟨d, hd, hde⟩
    exact hde ▸ hp d hd

/-- Witness for the amended C3 on a concrete one-entry state. -/
theorem C3_amended_coords_in_range_witness :
    coordsInRange (add_entry env48 800 600 viewMargin (some "p.png") true
      ⟨[⟨1, "a", "data/images/1_a.png", 50, -30⟩], 2,
        ⟨"X Axis", "Left", "Right", "Y Axis", "Top", "Bottom"⟩, [1], ⟨[], [], true⟩⟩
      ⟨none, []⟩).state.entries ∧
    coordsInRange (edit_selected env48 800 600 viewMargin (some 1) (some ("n", 7, -9))
      ⟨[⟨1, "a", "data/images/1_a.png", 50, -30⟩], 2,
        ⟨"X Axis", "Left", "Right", "Y Axis", "Top", "Bottom"⟩, [1], ⟨[], [], true⟩⟩
      ⟨none, []⟩).state.entries ∧
    coordsInRange (edit_selected env48 800 600 viewMargin (some 1) none
      ⟨[⟨1, "a", "data/images/1_a.png", 50, -30⟩], 2,
        ⟨"X Axis", "Left", "Right", "Y Axis", "Top", "Bottom"⟩, [1], ⟨[], [], true⟩⟩
      ⟨none, []⟩).state.entries ∧
    coordsInRange (open_entry_dialog_from_list env48 800 600 viewMargin 1 (some ("n", 7, -9))
      ⟨[⟨1, "a", "data/images/1_a.png", 50, -30⟩], 2,
        ⟨"X Axis", "Left", "Right", "Y Axis", "Top", "Bottom"⟩, [1], ⟨[], [], true⟩⟩
      ⟨none, []⟩).state.entries ∧
    coordsInRange (open_entry_dialog_from_list env48 800 600 viewMargin 1 none
      ⟨[⟨1, "a", "data/images/1_a.png", 50, -30⟩], 2,
        ⟨"X Axis", "Left", "Right", "Y Axis", "Top", "Bottom"⟩, [1], ⟨[], [], true⟩⟩
      ⟨none, []⟩).state.entries ∧
    coordsInRange (update_entry_from_item 800 600 viewMargin ⟨1, (0, 0), 48, 48⟩
      ⟨[⟨1, "a", "data/images/1_a.png", 50, -30⟩], 2,
        ⟨"X Axis", "Left", "Right", "Y Axis", "Top", "Bottom"⟩, [1], ⟨[], [], true⟩⟩
      ⟨none, []⟩).1.entries ∧
    coordsInRange (delete_selected (some 1) true true
      ⟨[⟨1, "a", "data/images/1_a.png", 50, -30⟩], 2,
        ⟨"X Axis", "Left", "Right", "Y Axis", "Top", "Bottom"⟩, [1], ⟨[], [], true⟩⟩
      ⟨none, []⟩).state.entries ∧
    coordsInRange (load_data env48 800 600 viewMargin
      ⟨[⟨1, "a", "data/images/1_a.png", 50, -30⟩], 2,
        ⟨"X Axis", "Left", "Right", "Y Axis", "Top", "Bottom"⟩, [1], ⟨[], [], true⟩⟩
      ⟨some ⟨some 5, [⟨4, "d", "data/images/4_d.png", some 10, some 20⟩], none⟩,
       ["data/images/4_d.png"]⟩).1.entries :=
  C3_amended_coords_in_range env48 800 600 viewMargin (some "p.png") true (some 1) 1
    "n" 7 (-9) true true ⟨1, (0, 0), 48, 48⟩
    ⟨some 5, [⟨4, "d", "data/images/4_d.png", some 10, some 20⟩], none⟩
    ["data/images/4_d.png"]
    ⟨[⟨1, "a", "data/images/1_a.png", 50, -30⟩], 2,
      ⟨"X Axis", "Left", "Right", "Y Axis", "Top", "Bottom"⟩, [1], ⟨[], [], true⟩⟩
    ⟨none, []⟩
    (by decide) (by decide) (by decide) (by decide) (by decide) (by decide)

end QuadrantRanking
